import Mathlib

/-!
# Verification of the US Treasury returns pipeline

Shallow embedding of the repository's data transformations:

* `pull_treasury_auction_stats.py` — JSONP unwrapping, per-column coercion
  of date, numeric and boolean columns, and the `__main__` pull step.
* `generate_chart.py` — cumulative-return series per maturity bucket.
* `summary_treasury_bond_returns_ipynb.py` — the notebook cells' file reads
  and the try/except around the auction-statistics section.
* The returns calculator and dataset standardizer are invoked by `dodo.py`
  but their sources are not part of this tree; they are modelled from the
  spec where a claim needs them.

Tabular cells are modelled by the inductive `Cell`; pandas' missing markers
(`NaN`/`NaT`/`None`) are the single constructor `Cell.missing`.  Returns are
rational numbers.  Fallible steps return `Except String`.
-/

namespace TreasuryReturns

/-- A value held in one cell of a pandas DataFrame: a raw string from the
parsed JSON, a coerced boolean, a coerced number, a coerced calendar date,
or the missing marker (NaN/NaT/None). -/
inductive Cell where
  | str (s : String)
  | boolean (b : Bool)
  | num (q : ℚ)
  | date (y m d : Nat)
  | missing
deriving DecidableEq, Repr

/-- `Series.map (dict)` with the dict literal of
`pull_treasury_auction_stats.py` line 247:
`df[col].map ( "true" to True, "false" to False )`.
pandas maps any value that is not a key of the dict — including booleans,
numbers and the missing marker itself — to NaN. -/
def coerceBool : Cell → Cell
  | Cell.str s =>
      if s = "true" then Cell.boolean true
      else if s = "false" then Cell.boolean false
      else Cell.missing
  | _ => Cell.missing

/-! ## JSONP unwrapping (`pull_treasury_auction_stats.py` lines 192–194)

The script reads the whole response body and computes
`x.replace(b");", b"").replace(b"callback (", b"")` before `json.loads`.
Byte strings are modelled as `List Char`; `bytes.replace` replaces every
non-overlapping occurrence, scanning left to right. -/

/-- `startswith` on character lists: is the first list a prefix of the
second? -/
def isPre : List Char → List Char → Bool
  | [], _ => true
  | _ :: _, [] => false
  | a :: as, b :: bs => if a = b then isPre as bs else false

/-- Fuel-indexed body of Python `bytes.replace`: replace every
non-overlapping occurrence of `pat`, leftmost first, by `rep`.  The fuel
only needs to exceed the input length. -/
def replAux (pat rep : List Char) : Nat → List Char → List Char
  | _, [] => []
  | 0, c :: rest => c :: rest
  | fuel + 1, c :: rest =>
      if isPre pat (c :: rest) then
        rep ++ replAux pat rep fuel (List.drop pat.length (c :: rest))
      else
        c :: replAux pat rep fuel rest

/-- Python `s.replace(pat, rep)` for a nonempty pattern. -/
def pyReplace (pat rep s : List Char) : List Char :=
  replAux pat rep s.length s

/-- The byte sequence `b");"`. -/
def closeSeq : List Char := [')', ';']

/-- The byte sequence `b"callback ("`. -/
def callbackSeq : List Char := ['c', 'a', 'l', 'l', 'b', 'a', 'c', 'k', ' ', '(']

/-- Line 194 of `pull_treasury_auction_stats.py`:
`x.replace(b");", b"").replace(b"callback (", b"")`. -/
def stripJSONP (body : List Char) : List Char :=
  pyReplace callbackSeq [] (pyReplace closeSeq [] body)

/-- A response body wrapped as a fixed `callback (` prefix and `);` suffix
around the inner JSON. -/
def wrapJSONP (inner : List Char) : List Char :=
  callbackSeq ++ inner ++ closeSeq

/-- Does `pat` occur anywhere in `s` (as a contiguous sublist)? -/
def hasSub (pat : List Char) : List Char → Bool
  | [] => isPre pat []
  | c :: rest => isPre pat (c :: rest) || hasSub pat rest

/-- Does `pat` occur in `s ++ pat` at any position strictly before the
final occurrence? -/
def occursBeforeEnd (pat : List Char) : List Char → Bool
  | [] => false
  | c :: rest => isPre pat ((c :: rest) ++ pat) || occursBeforeEnd pat rest

theorem isPre_refl (l : List Char) : isPre l l = true := by
  induction l with
  | nil => rfl
  | cons a as ih => simp [isPre, ih]

theorem isPre_self_append (l t : List Char) : isPre l (l ++ t) = true := by
  induction l with
  | nil => rfl
  | cons a as ih => simp [isPre, ih]

/-- A pattern-free string passes through `replace` unchanged, whatever the
fuel. -/
theorem replAux_of_not_hasSub (pat rep : List Char) (s : List Char)
    (h : hasSub pat s = false) (fuel : Nat) :
    replAux pat rep fuel s = s := by
  induction s generalizing fuel with
  | nil => cases fuel <;> rfl
  | cons c rest ih =>
      simp only [hasSub, Bool.or_eq_false_iff] at h
      cases fuel with
      | zero => rfl
      | succ f => simp [replAux, h.1, ih h.2 f]

/-- `replace(pat, b"")` on `s ++ pat` removes the final occurrence and,
when no occurrence starts before it, leaves `s` intact. -/
theorem replAux_append_pat (pat : List Char) (hne : pat ≠ []) (s : List Char)
    (h : occursBeforeEnd pat s = false) (fuel : Nat) (hf : s.length < fuel) :
    replAux pat [] fuel (s ++ pat) = [] ++ s := by
  induction s generalizing fuel with
  | nil =>
      match fuel, hf with
      | f + 1, _ =>
        match pat, hne with
        | p :: ps, _ =>
          simp [replAux, isPre_refl, List.drop_length]
  | cons c rest ih =>
      simp only [occursBeforeEnd, Bool.or_eq_false_iff] at h
      match fuel, hf with
      | f + 1, hf =>
        have h0 : isPre pat (c :: (rest ++ pat)) = false := by simpa using h.1
        have hrec := ih h.2 f (by simpa using Nat.lt_of_succ_lt_succ hf)
        simp only [List.nil_append] at hrec
        simp [replAux, h0, hrec]

/-- `replace(pat, b"")` on `pat ++ s` removes the leading occurrence and,
when `pat` does not occur in `s`, leaves `s` intact. -/
theorem replAux_pat_append (pat : List Char) (hne : pat ≠ []) (s : List Char)
    (h : hasSub pat s = false) (fuel : Nat) (hf : 0 < fuel) :
    replAux pat [] fuel (pat ++ s) = s := by
  match fuel, hf with
  | f + 1, _ =>
    match pat, hne with
    | p :: ps, _ =>
      have hpre : isPre (p :: ps) ((p :: ps) ++ s) = true := isPre_self_append _ _
      simp only [List.cons_append] at hpre ⊢
      simp only [replAux, hpre, if_pos, List.nil_append]
      have hdrop : List.drop (p :: ps).length (p :: (ps ++ s)) = s := by
        rw [← List.cons_append, List.drop_left]
      rw [hdrop]
      exact replAux_of_not_hasSub _ _ s h f

/-- The inner JSON array `[1, ");"]` — a valid JSON payload that contains
the closing byte sequence `);` inside a string literal. -/
def innerBad : List Char := ['[', '1', ',', ' ', '"', ')', ';', '"', ']']

/-! ## Per-column coercion (`pull_treasury_auction_stats.py` lines 196–249)

The pulled table is a list of rows; a row is a total map from column name
to `Cell`.  The three column lists below are transcribed from the source.
The library calls `pd.to_datetime(errors="coerce")` and
`pd.to_numeric(errors="coerce")` are modelled by total per-cell parsers:
a parseable cell becomes the parsed date/number, anything unparseable
becomes the missing marker, and no cell ever raises. -/

/-- A row of the auction table: column name to cell value. -/
abbrev AuctionRow : Type := String → Cell

/-- The auction table. -/
abbrev AuctionTable : Type := List AuctionRow

/-- Split a character list on a separator character. -/
def splitOnChar (sep : Char) : List Char → List (List Char)
  | [] => [[]]
  | c :: rest =>
      if c = sep then [] :: splitOnChar sep rest
      else
        match splitOnChar sep rest with
        | [] => [[c]]
        | g :: gs => (c :: g) :: gs

/-- Value of a nonempty all-digit character list, else `none`. -/
def digitsVal? (l : List Char) : Option Nat :=
  if l = [] then none
  else if l.all Char.isDigit then
    some (l.foldl (fun acc c => 10 * acc + (c.toNat - 48)) 0)
  else none

/-- ISO `YYYY-MM-DD` calendar-date parser standing in for the library date
parser: three dash-separated digit groups with the month in 1–12 and the
day in 1–31. -/
def parseDateISO (s : List Char) : Option (Nat × Nat × Nat) :=
  match splitOnChar '-' s with
  | [ys, ms, ds] =>
      match digitsVal? ys, digitsVal? ms, digitsVal? ds with
      | some y, some m, some d =>
          if 1 ≤ m ∧ m ≤ 12 ∧ 1 ≤ d ∧ d ≤ 31 then some (y, m, d) else none
      | _, _, _ => none
  | _ => none

/-- Decimal rational parser standing in for the library float parser:
optional leading minus sign, digits, optional fractional digits. -/
def parseRatDec (s : List Char) : Option ℚ :=
  let core : List Char → Option ℚ := fun t =>
    match splitOnChar '.' t with
    | [ip] => (digitsVal? ip).map (fun n => (n : ℚ))
    | [ip, fp] =>
        match digitsVal? ip, digitsVal? fp with
        | some n, some f => some ((n : ℚ) + (f : ℚ) / (10 : ℚ) ^ fp.length)
        | _, _ => none
    | _ => none
  match s with
  | '-' :: rest => (core rest).map (fun q => -q)
  | _ => core s

/-- Can this cell be parsed to a calendar date?  Strings go through the
date parser; an already-typed date parses to itself; booleans, numbers and
the missing marker do not parse. -/
def tryParseDate (c : Cell) : Option (Nat × Nat × Nat) :=
  match c with
  | Cell.str s => parseDateISO s.toList
  | Cell.date y m d => some (y, m, d)
  | _ => none

/-- `pd.to_datetime(errors="coerce")` on one cell: the parsed date, or the
missing marker when the value cannot be parsed. -/
def toDatetimeCoerce (c : Cell) : Cell :=
  match tryParseDate c with
  | some (y, m, d) => Cell.date y m d
  | none => Cell.missing

/-- Can this cell be parsed to a number?  Strings go through the decimal
parser, numbers parse to themselves, booleans to 1/0; dates and the
missing marker do not parse. -/
def tryParseNum (c : Cell) : Option ℚ :=
  match c with
  | Cell.str s => parseRatDec s.toList
  | Cell.num q => some q
  | Cell.boolean b => some (if b then 1 else 0)
  | _ => none

/-- `pd.to_numeric(errors="coerce")` on one cell: the parsed number, or
the missing marker when the value cannot be parsed. -/
def toNumericCoerce (c : Cell) : Cell :=
  match tryParseNum c with
  | some q => Cell.num q
  | none => Cell.missing

/-- The `date_cols` list of `pull_treasury_auction_stats.py`. -/
def dateCols : List String :=
  ["issueDate", "maturityDate", "announcementDate", "auctionDate",
   "datedDate", "backDatedDate", "callDate", "calledDate",
   "firstInterestPaymentDate", "maturingDate", "originalDatedDate",
   "originalIssueDate", "tintCusip1DueDate", "tintCusip2DueDate"]

/-- The `numeric_cols` list of `pull_treasury_auction_stats.py`. -/
def numericCols : List String :=
  ["interestRate", "accruedInterestPer1000", "accruedInterestPer100",
   "adjustedAccruedInterestPer1000", "adjustedPrice",
   "allocationPercentage", "averageMedianDiscountRate",
   "averageMedianInvestmentRate", "averageMedianPrice", "bidToCoverRatio",
   "totalAccepted", "totalTendered"]

/-- The `bool_cols` list of `pull_treasury_auction_stats.py`. -/
def boolCols : List String :=
  ["backDated", "callable", "cashManagementBillCMB", "fimaIncluded",
   "floatingRate", "reopening", "somaIncluded", "strippable", "tips"]

/-- The three per-column coercions of `pull_treasury_auction_data`
(lines 215, 232 and 246–247) applied to one row: date columns through the
date coercion, numeric columns through the numeric coercion, boolean-flag
columns through the dict map, every other column untouched.  The three
column lists are pairwise disjoint, so the assignment order in the script
does not matter. -/
def coerceRow (row : AuctionRow) : AuctionRow := fun col =>
  if col ∈ dateCols then toDatetimeCoerce (row col)
  else if col ∈ numericCols then toNumericCoerce (row col)
  else if col ∈ boolCols then coerceBool (row col)
  else row col

/-- The coercion stage applied to the whole table, row by row. -/
def coerceTable (t : AuctionTable) : AuctionTable := t.map coerceRow

/-- `pull_treasury_auction_data` given the outcome of the fetch-and-parse
prelude (lines 190–196): a fetch or parse error propagates; a parsed
table goes through the per-column coercions. -/
def pullStage (fetched : Except String AuctionTable) :
    Except String AuctionTable :=
  match fetched with
  | Except.error e => Except.error e
  | Except.ok t => Except.ok (coerceTable t)

/-- The `__main__` block (lines 271–275): run the pull once and, only on
success, overwrite the output file with the result.  `attempts` is the
stream of fetch outcomes the network would deliver; the script consults
only the first.  `prior` is the output file's state before the run. -/
def mainStep (attempts : List (Except String AuctionTable))
    (prior : Option AuctionTable) :
    Option AuctionTable × Except String Unit :=
  match attempts with
  | [] => (prior, Except.error "no response")
  | a :: _ =>
      match pullStage a with
      | Except.error e => (prior, Except.error e)
      | Except.ok df => (some df, Except.ok ())

/-! ## File reads (`summary_treasury_bond_returns_ipynb.py`,
`generate_chart.py`, `load_treasury_auction_data`)

A file system maps dataset file names to their contents. -/

/-- `pd.read_parquet`: the file's table, or a file-not-found error. -/
def readParquet (fs : String → Option AuctionTable) (name : String) :
    Except String AuctionTable :=
  match fs name with
  | none => Except.error ("FileNotFoundError: " ++ name)
  | some t => Except.ok t

/-- The auction-statistics cell of the notebook (lines 142–156): a
try/except around the read that prints a warning instead of failing when
the file is missing. -/
def auctionSection (fs : String → Option AuctionTable) : List String :=
  match readParquet fs "treasury_auction_stats" with
  | Except.error _ => ["Treasury auction stats file not found"]
  | Except.ok _ => ["auction stats summary"]

/-- The notebook's data-loading cells in order: the bond-returns read
(line 54) and the portfolio-returns read (line 69) propagate a missing
file as an error; the auction-statistics section is guarded. -/
def notebookRun (fs : String → Option AuctionTable) :
    Except String (List String) :=
  match readParquet fs "ftsfr_treas_bond_returns" with
  | Except.error e => Except.error e
  | Except.ok _ =>
      match readParquet fs "ftsfr_treas_bond_portfolio_returns" with
      | Except.error e => Except.error e
      | Except.ok _ => Except.ok (auctionSection fs)

/-- The chart-generation step (`generate_chart.py`): both chart functions
begin by reading the portfolio-returns file, so a missing file fails the
step. -/
def generateChartsStep (fs : String → Option AuctionTable) :
    Except String Unit :=
  match readParquet fs "ftsfr_treas_bond_portfolio_returns" with
  | Except.error e => Except.error e
  | Except.ok _ => Except.ok ()

/-- `load_treasury_auction_data` (lines 252–257): a plain read with no
guard. -/
def loadTreasuryAuctionData (fs : String → Option AuctionTable) :
    Except String AuctionTable :=
  readParquet fs "treasury_auction_stats"

/-- A row carrying an unparseable date string and an unparseable numeric
string. -/
def rowBad : AuctionRow := fun col =>
  if col = "issueDate" then Cell.str "TBD"
  else if col = "interestRate" then Cell.str "n/a"
  else Cell.str "x"

/-- A row of raw string cells as parsed from the JSON feed. -/
def rowRaw : AuctionRow := fun col =>
  if col = "cusip" then Cell.str "912810TM0"
  else if col = "securityType" then Cell.str "Bond"
  else Cell.str "x"

/-- A file system holding the two standardized datasets but not the
auction-statistics file. -/
def fsMissingAuction : String → Option AuctionTable := fun name =>
  if name = "treasury_auction_stats" then none else some []

/-- A benign inner JSON array `[1, 2]` containing neither wrapper byte
sequence. -/
def innerGood : List Char := ['[', '1', ',', ' ', '2', ']']

end TreasuryReturns

open TreasuryReturns

/-- C3 counterexample: the unwrapping is a global byte-sequence
replacement, not a strip of the fixed wrapper, so an occurrence of `);`
inside the JSON payload (here inside the string literal of `[1, ");"]`) is
removed as well — the inner JSON is not preserved unchanged. -/
theorem c3_counterexample :
    stripJSONP (wrapJSONP innerBad) ≠ innerBad := by decide

/-- C3 amended: `pull_treasury_auction_data` removes every occurrence of
the byte sequences `);` and `callback (` from the body.  When `);` occurs
in the prefixed body only as the final wrapper suffix and `callback (`
does not occur inside the inner JSON, unwrapping a body wrapped as
`callback (` … `);` yields the inner JSON unchanged. -/
theorem c3_unwrap_amended (inner : List Char)
    (h1 : occursBeforeEnd closeSeq (callbackSeq ++ inner) = false)
    (h2 : hasSub callbackSeq inner = false) :
    stripJSONP (wrapJSONP inner) = inner := by
  unfold stripJSONP wrapJSONP pyReplace
  have e1 : replAux closeSeq [] (callbackSeq ++ inner ++ closeSeq).length
      (callbackSeq ++ inner ++ closeSeq) = callbackSeq ++ inner := by
    have := replAux_append_pat closeSeq (by decide) (callbackSeq ++ inner) h1
      ((callbackSeq ++ inner) ++ closeSeq).length (by simp [closeSeq])
    simpa using this
  rw [e1]
  exact replAux_pat_append callbackSeq (by decide) inner h2 _ (by simp [callbackSeq])

/-- C3 witness: the amended theorem applied to the concrete wrapped
payload `callback ([1, 2]);`, whose hypotheses hold by evaluation. -/
theorem c3_unwrap_amended_witness :
    (occursBeforeEnd closeSeq (callbackSeq ++ innerGood) = false ∧
      hasSub callbackSeq innerGood = false) ∧
    stripJSONP (wrapJSONP innerGood) = innerGood :=
  ⟨⟨by decide, by decide⟩, c3_unwrap_amended innerGood (by decide) (by decide)⟩

/-- C4: every value of a boolean-flag column after coercion is
`boolean true` exactly when the source value was the literal string
`"true"`, `boolean false` exactly when it was `"false"`, and the missing
marker for every other source value; in particular the coerced column
contains only values in the set true/false/missing. -/
theorem c4_bool_coercion (c : Cell) :
    (coerceBool c = Cell.boolean true ↔ c = Cell.str "true") ∧
    (coerceBool c = Cell.boolean false ↔ c = Cell.str "false") ∧
    (c ≠ Cell.str "true" → c ≠ Cell.str "false" → coerceBool c = Cell.missing) ∧
    (coerceBool c = Cell.boolean true ∨ coerceBool c = Cell.boolean false ∨
      coerceBool c = Cell.missing) := by
  cases c with
  | str s =>
      by_cases h1 : s = "true"
      · subst h1; simp [coerceBool]
      · by_cases h2 : s = "false"
        · subst h2; simp [coerceBool]
        · simp [coerceBool, h1, h2]
  | boolean b => simp [coerceBool]
  | num q => simp [coerceBool]
  | date y m d => simp [coerceBool]
  | missing => simp [coerceBool]

/-- C4 witness: the three mapping cases evaluated at concrete cells. -/
theorem c4_bool_coercion_witness :
    (Cell.str "reopening" ≠ Cell.str "true" ∧ Cell.str "reopening" ≠ Cell.str "false") ∧
    coerceBool (Cell.str "reopening") = Cell.missing :=
  ⟨⟨by decide, by decide⟩,
    (c4_bool_coercion (Cell.str "reopening")).2.2.1 (by decide) (by decide)⟩

/-- C10: the boolean coercion is not idempotent — on a column whose entries
are already coerced (booleans or missing), a second application of the map
sends every entry, `true` and `false` included, to the missing marker,
because only the lowercase strings `"true"` and `"false"` are dict keys. -/
theorem c10_bool_coercion_not_idempotent :
    coerceBool (Cell.boolean true) = Cell.missing ∧
    coerceBool (Cell.boolean false) = Cell.missing ∧
    coerceBool Cell.missing = Cell.missing ∧
    (∀ c : Cell, coerceBool (coerceBool c) = Cell.missing) ∧
    ¬ (∀ c : Cell, coerceBool (coerceBool c) = coerceBool c) := by
  refine ⟨rfl, rfl, rfl, ?_, ?_⟩
  · intro c
    cases c with
    | str s =>
        by_cases h1 : s = "true"
        · subst h1; rfl
        · by_cases h2 : s = "false"
          · subst h2; rfl
          · simp [coerceBool, h1, h2]
    | boolean b => cases b <;> rfl
    | num q => rfl
    | date y m d => rfl
    | missing => rfl
  · intro h
    have := h (Cell.str "true")
    simp [coerceBool] at this

/-- C6: a date-typed cell that cannot be parsed to a calendar date, or a
numeric-typed cell that cannot be parsed to a number, is replaced by the
missing marker for that single cell, and the coercion stage as a whole
always succeeds (it maps every row and never errors), so a coercion
failure never fails the row, the table or the pull. -/
theorem c6_coercion_per_cell (row : AuctionRow) (col : String)
    (t : AuctionTable) :
    (col ∈ dateCols → tryParseDate (row col) = none →
      coerceRow row col = Cell.missing) ∧
    (col ∈ numericCols → tryParseNum (row col) = none →
      coerceRow row col = Cell.missing) ∧
    pullStage (Except.ok t) = Except.ok (List.map coerceRow t) ∧
    (List.map coerceRow t).length = t.length := by
  refine ⟨?_, ?_, rfl, List.length_map t coerceRow⟩
  · intro hd hp
    simp [coerceRow, hd, toDatetimeCoerce, hp]
  · intro hn hp
    have hdisj : ∀ x ∈ numericCols, x ∉ dateCols := by decide
    simp [coerceRow, hdisj col hn, hn, toNumericCoerce, hp]

/-- C6 witness: the per-cell recovery evaluated on a row whose
`issueDate` is the unparseable string `TBD` and whose `interestRate` is
the unparseable string `n/a`. -/
theorem c6_coercion_per_cell_witness :
    ("issueDate" ∈ dateCols ∧ tryParseDate (rowBad "issueDate") = none) ∧
    coerceRow rowBad "issueDate" = Cell.missing ∧
    ("interestRate" ∈ numericCols ∧
      tryParseNum (rowBad "interestRate") = none) ∧
    coerceRow rowBad "interestRate" = Cell.missing :=
  ⟨⟨by decide, by decide⟩,
   (c6_coercion_per_cell rowBad "issueDate" []).1 (by decide) (by decide),
   ⟨by decide, by decide⟩,
   (c6_coercion_per_cell rowBad "interestRate" []).2.1 (by decide) (by decide)⟩

/-- C7: if the fetch-and-parse prelude fails, the pull step returns that
error, the output file keeps its prior state (no partial file), and no
retry happens — the step's outcome depends only on the first fetch
attempt. -/
theorem c7_failfast (e : String) (rest : List (Except String AuctionTable))
    (prior : Option AuctionTable) :
    mainStep (Except.error e :: rest) prior = (prior, Except.error e) ∧
    (∀ (a : Except String AuctionTable)
      (more : List (Except String AuctionTable)),
      mainStep (a :: more) prior = mainStep [a] prior) := by
  refine ⟨rfl, ?_⟩
  intro a more
  cases a <;> rfl

/-- C8: with the auction-statistics file missing but the two standardized
datasets present, the notebook run succeeds and prints the warning of the
except branch; every other read of a missing upstream file — the
notebook's own bond-returns read, the chart step, and the plain auction
loader — fails with a file-not-found error. -/
theorem c8_notebook_exception (fs : String → Option AuctionTable)
    (hb : fs "ftsfr_treas_bond_returns" ≠ none)
    (hp : fs "ftsfr_treas_bond_portfolio_returns" ≠ none)
    (ha : fs "treasury_auction_stats" = none) :
    notebookRun fs = Except.ok ["Treasury auction stats file not found"] ∧
    (∀ fs2 : String → Option AuctionTable,
      fs2 "ftsfr_treas_bond_portfolio_returns" = none →
      generateChartsStep fs2 =
        Except.error ("FileNotFoundError: " ++ "ftsfr_treas_bond_portfolio_returns")) ∧
    (∀ fs2 : String → Option AuctionTable,
      fs2 "ftsfr_treas_bond_returns" = none →
      notebookRun fs2 =
        Except.error ("FileNotFoundError: " ++ "ftsfr_treas_bond_returns")) ∧
    (∀ fs2 : String → Option AuctionTable,
      fs2 "treasury_auction_stats" = none →
      loadTreasuryAuctionData fs2 =
        Except.error ("FileNotFoundError: " ++ "treasury_auction_stats")) := by
  obtain ⟨tb, hb'⟩ := Option.ne_none_iff_exists'.mp hb
  obtain ⟨tp, hp'⟩ := Option.ne_none_iff_exists'.mp hp
  refine ⟨?_, ?_, ?_, ?_⟩
  · simp [notebookRun, readParquet, hb', hp', auctionSection, ha]
  · intro fs2 h2
    simp [generateChartsStep, readParquet, h2]
  · intro fs2 h2
    simp [notebookRun, readParquet, h2]
  · intro fs2 h2
    simp [loadTreasuryAuctionData, readParquet, h2]

/-- C8 witness: the guarded notebook run on a concrete file system with
the auction-statistics file absent. -/
theorem c8_notebook_exception_witness :
    (fsMissingAuction "ftsfr_treas_bond_returns" ≠ none ∧
     fsMissingAuction "ftsfr_treas_bond_portfolio_returns" ≠ none ∧
     fsMissingAuction "treasury_auction_stats" = none) ∧
    notebookRun fsMissingAuction =
      Except.ok ["Treasury auction stats file not found"] := by
  have h1 : fsMissingAuction "ftsfr_treas_bond_returns" = some [] := rfl
  have h2 : fsMissingAuction "ftsfr_treas_bond_portfolio_returns" = some [] := rfl
  have h3 : fsMissingAuction "treasury_auction_stats" = none := rfl
  exact ⟨⟨by simp [h1], by simp [h2], h3⟩,
    (c8_notebook_exception fsMissingAuction (by simp [h1]) (by simp [h2]) h3).1⟩

/-- C9: only the explicitly listed date, numeric and boolean columns are
coerced; any other column of the table keeps its raw parsed-JSON value
unchanged, in every row of the returned table. -/
theorem c9_untouched_columns (row : AuctionRow) (col : String)
    (h1 : col ∉ dateCols) (h2 : col ∉ numericCols) (h3 : col ∉ boolCols) :
    coerceRow row col = row col ∧
    ∀ t : AuctionTable, row ∈ t → coerceRow row ∈ coerceTable t := by
  constructor
  · simp [coerceRow, h1, h2, h3]
  · intro t ht
    exact List.mem_map_of_mem coerceRow ht

/-- C9 witness: the identifier column `cusip`, which is in none of the
three coercion lists, passes through unchanged on a concrete raw row. -/
theorem c9_untouched_columns_witness :
    ("cusip" ∉ dateCols ∧ "cusip" ∉ numericCols ∧ "cusip" ∉ boolCols) ∧
    coerceRow rowRaw "cusip" = rowRaw "cusip" :=
  ⟨⟨by decide, by decide, by decide⟩,
    (c9_untouched_columns rowRaw "cusip" (by decide) (by decide) (by decide)).1⟩

namespace TreasuryReturns

/-! ## Cumulative returns (`generate_chart.py` lines 50–90)

`generate_us_treasury_cumulative_returns_chart` sorts the standardized
portfolio table by (unique_id, ds) and computes, per unique_id group, the
column `(1 + y).cumprod()`. -/

/-- One row of the standardized portfolio dataset: bucket identifier,
date, return. -/
structure PRow where
  uid : String
  ds : Nat
  y : ℚ
deriving DecidableEq

/-- Stable insertion of a row into a list sorted by date. -/
def insertByDs (r : PRow) : List PRow → List PRow
  | [] => [r]
  | x :: xs => if r.ds ≤ x.ds then r :: x :: xs else x :: insertByDs r xs

/-- Stable sort by date (`sort_values` on `ds` within one group). -/
def sortByDs : List PRow → List PRow
  | [] => []
  | x :: xs => insertByDs x (sortByDs xs)

/-- One bucket's return series in date order: the group the
`groupby("unique_id")` transform operates on. -/
def bucketSeries (rows : List PRow) (uid : String) : List ℚ :=
  (sortByDs (rows.filter (fun r => r.uid == uid))).map PRow.y

/-- `(1 + x).cumprod()` with running accumulator `acc`. -/
def cumprodAux (acc : ℚ) : List ℚ → List ℚ
  | [] => []
  | r :: rest => (acc * (1 + r)) :: cumprodAux (acc * (1 + r)) rest

/-- The `cumulative` column of one bucket: `(1 + x).cumprod()` starting
from an accumulator of 1. -/
def cumulativeSeries (rows : List PRow) (uid : String) : List ℚ :=
  cumprodAux 1 (bucketSeries rows uid)

theorem cumprodAux_get (l : List ℚ) (acc : ℚ) (i : Nat)
    (hi : i < (cumprodAux acc l).length) :
    (cumprodAux acc l).get ⟨i, hi⟩ =
      acc * ((l.take (i + 1)).map (fun r => 1 + r)).prod := by
  induction l generalizing acc i with
  | nil => simp [cumprodAux] at hi
  | cons r rest ih =>
      cases i with
      | zero => simp [cumprodAux]
      | succ j =>
          have hj : j < (cumprodAux (acc * (1 + r)) rest).length := by
            simpa [cumprodAux] using hi
          have hrec := ih (acc * (1 + r)) j hj
          simp only [cumprodAux, List.get_cons_succ, hrec, List.take_succ_cons,
            List.map_cons, List.prod_cons]
          ring

/-- A small standardized portfolio table: bucket 1 observed on dates 1
and 2, bucket 2 on date 1. -/
def demoRows : List PRow :=
  [⟨"1", 2, 1/100⟩, ⟨"1", 1, 2/100⟩, ⟨"2", 1, 3/100⟩]

end TreasuryReturns

/-- C5: for every bucket, the cumulative value at the i-th observation
(in date order) is the running product of (1 + return) over the bucket's
first i+1 observations; the running product starts from 1, so the first
plotted cumulative value is 1 · (1 + first return). -/
theorem c5_cumulative_running_product (rows : List PRow) (uid : String) :
    (∀ (i : Nat) (hi : i < (cumulativeSeries rows uid).length),
      (cumulativeSeries rows uid).get ⟨i, hi⟩ =
        (((bucketSeries rows uid).take (i + 1)).map (fun r => 1 + r)).prod) ∧
    (∀ (r0 : ℚ) (rest : List ℚ), bucketSeries rows uid = r0 :: rest →
      (cumulativeSeries rows uid).head? = some (1 * (1 + r0))) := by
  constructor
  · intro i hi
    have h := cumprodAux_get (bucketSeries rows uid) 1 i hi
    simpa [cumulativeSeries, one_mul] using h
  · intro r0 rest hbs
    simp [cumulativeSeries, hbs, cumprodAux]

/-- C5 witness: the first plotted value evaluated on the concrete table
`demoRows` for bucket 1, whose date-ordered returns are 2/100 then 1/100,
and the running product at the second observation. -/
theorem c5_cumulative_running_product_witness :
    (bucketSeries demoRows "1" = [(2 : ℚ)/100, (1 : ℚ)/100] ∧
      1 < (cumulativeSeries demoRows "1").length) ∧
    (cumulativeSeries demoRows "1").head? = some (1 * (1 + (2 : ℚ)/100)) ∧
    (cumulativeSeries demoRows "1").getD 1 0 =
      (((bucketSeries demoRows "1").take (1 + 1)).map (fun r => 1 + r)).prod := by
  have hbs : bucketSeries demoRows "1" = [(2 : ℚ)/100, (1 : ℚ)/100] := by
    norm_num [bucketSeries, demoRows, sortByDs, insertByDs]
  have hlen : 1 < (cumulativeSeries demoRows "1").length := by
    simp [cumulativeSeries, hbs, cumprodAux]
  have hget := (c5_cumulative_running_product demoRows "1").1 1 hlen
  have hgd : (cumulativeSeries demoRows "1").getD 1 0 =
      (cumulativeSeries demoRows "1").get ⟨1, hlen⟩ := by
    rw [List.getD_eq_getElem?_getD, List.getElem?_eq_getElem hlen]
    rfl
  exact ⟨⟨hbs, hlen⟩,
    (c5_cumulative_running_product demoRows "1").2 (2/100) [1/100] (by simpa using hbs),
    hgd.trans hget⟩

namespace TreasuryReturns

/-! ## Returns calculator and dataset standardizer

`calc_treasury_bond_returns.py` and `create_ftsfr_datasets.py` are invoked
by `dodo.py` but are not part of this tree; the definitions below are
modelled from the spec. -/

/-- Modelled from the spec: one daily return record of the returns
calculator (`calc_treasury_bond_returns.py`, missing from this tree) —
a per-security, per-trading-day holding-period return, keyed by security
identifier, month and day within the month. -/
structure DailyRet where
  cusip : String
  month : Nat
  day : Nat
  r : ℚ
deriving DecidableEq

/-- Stable insertion of a daily record into a list sorted by day. -/
def insertByDay (x : DailyRet) : List DailyRet → List DailyRet
  | [] => [x]
  | y :: ys => if x.day ≤ y.day then x :: y :: ys else y :: insertByDay x ys

/-- Stable sort of daily records into trading-day order. -/
def sortByDay : List DailyRet → List DailyRet
  | [] => []
  | y :: ys => insertByDay y (sortByDay ys)

/-- The daily returns of one security in one month, in trading-day
order. -/
def monthDailies (recs : List DailyRet) (c : String) (m : Nat) : List ℚ :=
  (sortByDay (recs.filter (fun x => x.cusip == c && x.month == m))).map DailyRet.r

/-- Modelled from the spec: monthly compounding of the returns calculator
(`calc_treasury_bond_returns.py`, missing from this tree) — multiply
(1 + r) across the month's daily returns, running left to right, and
subtract 1.  Month-end prices are never consulted. -/
def compoundMonth (rs : List ℚ) : ℚ :=
  rs.foldl (fun acc r => acc * (1 + r)) 1 - 1

/-- The monthly return the calculator emits for security `c` and month
`m`. -/
def monthlyReturn (recs : List DailyRet) (c : String) (m : Nat) : ℚ :=
  compoundMonth (monthDailies recs c m)

theorem foldl_mul_one_add (rs : List ℚ) (a : ℚ) :
    rs.foldl (fun acc r => acc * (1 + r)) a =
      a * (rs.map (fun r => 1 + r)).prod := by
  induction rs generalizing a with
  | nil => simp
  | cons r rest ih =>
      simp only [List.foldl_cons, ih, List.map_cons, List.prod_cons]
      ring

/-- Modelled from the spec: one observation the dataset standardizer
(`create_ftsfr_datasets.py`, missing from this tree) buckets — a security
with its remaining maturity in years and its return on an observation
date. -/
structure SecObs where
  cusip : String
  date : Nat
  matYears : ℚ
  ret : ℚ
deriving DecidableEq

/-- Modelled from the spec: assignment of a remaining maturity to one of
the 10 fixed half-year buckets spanning [0, 5] years — bucket k covers
((k−1)/2, k/2], so a maturity exactly on a boundary lands in the
lower-maturity bucket, the last bucket is closed on the right, and
maturities outside (0, 5] belong to no bucket. -/
def bucketOf (m : ℚ) : Option Nat :=
  if ¬ (0 < m ∧ m ≤ 5) then none
  else if m ≤ 1/2 then some 1
  else if m ≤ 1 then some 2
  else if m ≤ 3/2 then some 3
  else if m ≤ 2 then some 4
  else if m ≤ 5/2 then some 5
  else if m ≤ 3 then some 6
  else if m ≤ 7/2 then some 7
  else if m ≤ 4 then some 8
  else if m ≤ 9/2 then some 9
  else some 10

/-- The returns of the securities that qualify for bucket `b` on date
`d`. -/
def qualifying (obs : List SecObs) (b d : Nat) : List ℚ :=
  (obs.filter (fun o =>
    decide (o.date = d) && decide (bucketOf o.matYears = some b))).map SecObs.ret

/-- Arithmetic mean of a list of returns. -/
def listMean (l : List ℚ) : ℚ := l.sum / (l.length : ℚ)

/-- One row of the bucketed portfolio-return output: bucket number,
date, portfolio return. -/
structure PortRow where
  bucket : Nat
  date : Nat
  ret : ℚ
deriving DecidableEq

/-- The observation dates present in the input, without duplicates. -/
def obsDates (obs : List SecObs) : List Nat := (obs.map SecObs.date).dedup

/-- Modelled from the spec: the bucketed portfolio-return table the
standardizer emits — for every observed date and every bucket with at
least one qualifying security, one row holding the cross-sectional mean
of the qualifying returns; a (bucket, date) pair with no qualifying
security contributes no row. -/
def portfolioReturns (obs : List SecObs) : List PortRow :=
  (obsDates obs).flatMap (fun d =>
    (List.range 10).filterMap (fun k =>
      if qualifying obs (k + 1) d = [] then none
      else some ⟨k + 1, d, listMean (qualifying obs (k + 1) d)⟩))

theorem mem_portfolioReturns_iff (obs : List SecObs) (p : PortRow) :
    p ∈ portfolioReturns obs ↔
      p.date ∈ obsDates obs ∧ (∃ k, k < 10 ∧ p.bucket = k + 1) ∧
      qualifying obs p.bucket p.date ≠ [] ∧
      p.ret = listMean (qualifying obs p.bucket p.date) := by
  rcases p with ⟨pb, pd, pr⟩
  dsimp only
  constructor
  · intro hp
    rw [portfolioReturns, List.mem_flatMap] at hp
    obtain ⟨d, hd, hp⟩ := hp
    rw [List.mem_filterMap] at hp
    obtain ⟨k, hk, hfk⟩ := hp
    by_cases hq : qualifying obs (k + 1) d = []
    · simp [hq] at hfk
    · rw [if_neg hq] at hfk
      have hmk := Option.some.inj hfk
      injection hmk with hb hdd hr
      subst hb; subst hdd; subst hr
      exact ⟨hd, ⟨k, List.mem_range.mp hk, rfl⟩, hq, rfl⟩
  · rintro ⟨hd, ⟨k, hk, hb⟩, hq, hr⟩
    subst hb; subst hr
    rw [portfolioReturns, List.mem_flatMap]
    refine ⟨pd, hd, List.mem_filterMap.mpr ⟨k, List.mem_range.mpr hk, ?_⟩⟩
    rw [if_neg hq]

/-- A concrete observation set: on date 5, security A (maturity 1/4 year,
return 1/100) and security B (maturity 2/5 year, return 3/100) fall in
bucket 1, while security C (maturity 3 years, return 2/100) falls in
bucket 6; bucket 2 has no member. -/
def demoObs : List SecObs :=
  [⟨"A", 5, 1/4, 1/100⟩, ⟨"B", 5, 2/5, 3/100⟩, ⟨"C", 5, 3, 2/100⟩]

end TreasuryReturns

/-- C2: for every security and month, the monthly return is the product
over the month's trading days of (1 + daily return), minus 1; compounding
a constant daily return r over n days gives (1 + r)^n − 1.  The monthly
figure is a function of the daily returns alone — no month-end price
enters the computation. -/
theorem c2_monthly_compounding (recs : List DailyRet) (c : String) (m : Nat) :
    monthlyReturn recs c m =
      ((monthDailies recs c m).map (fun r => 1 + r)).prod - 1 ∧
    (∀ (n : Nat) (r : ℚ),
      compoundMonth (List.replicate n r) = (1 + r) ^ n - 1) := by
  constructor
  · rw [monthlyReturn, compoundMonth, foldl_mul_one_add, one_mul]
  · intro n r
    rw [compoundMonth, foldl_mul_one_add, one_mul, List.map_replicate,
      List.prod_replicate]

/-- C1: a portfolio row emitted for (bucket, date) always carries the
arithmetic mean of the qualifying individual security returns for that
pair; when zero securities qualify, no row at all is emitted for the
pair; and whenever at least one security qualifies for a bucket in 1–10
on an observed date, the mean row is emitted. -/
theorem c1_portfolio_mean_and_omission (obs : List SecObs) (b d : Nat) :
    (∀ r : ℚ, (⟨b, d, r⟩ : PortRow) ∈ portfolioReturns obs →
      r = listMean (qualifying obs b d)) ∧
    (qualifying obs b d = [] →
      ∀ r : ℚ, (⟨b, d, r⟩ : PortRow) ∉ portfolioReturns obs) ∧
    (qualifying obs b d ≠ [] → 1 ≤ b → b ≤ 10 → d ∈ obsDates obs →
      (⟨b, d, listMean (qualifying obs b d)⟩ : PortRow) ∈ portfolioReturns obs) := by
  refine ⟨?_, ?_, ?_⟩
  · intro r hr
    exact ((mem_portfolioReturns_iff obs ⟨b, d, r⟩).mp hr).2.2.2
  · intro hq r hr
    exact ((mem_portfolioReturns_iff obs ⟨b, d, r⟩).mp hr).2.2.1 hq
  · intro hq h1 h10 hd
    exact (mem_portfolioReturns_iff obs ⟨b, d, listMean (qualifying obs b d)⟩).mpr
      ⟨hd, ⟨b - 1, by omega, by show b = b - 1 + 1; omega⟩, hq, rfl⟩

/-- C1 witness: on the concrete observation set `demoObs`, bucket 1 on
date 5 receives the mean of the two qualifying returns and bucket 2 on
date 5 receives no row. -/
theorem c1_portfolio_mean_and_omission_witness :
    (qualifying demoObs 1 5 = [(1 : ℚ)/100, (3 : ℚ)/100] ∧
      qualifying demoObs 2 5 = [] ∧ (5 : Nat) ∈ obsDates demoObs) ∧
    (⟨1, 5, listMean (qualifying demoObs 1 5)⟩ : PortRow) ∈ portfolioReturns demoObs ∧
    listMean (qualifying demoObs 1 5) = 1/50 ∧
    (⟨2, 5, 0⟩ : PortRow) ∉ portfolioReturns demoObs := by
  have hq1 : qualifying demoObs 1 5 = [(1 : ℚ)/100, (3 : ℚ)/100] := by
    norm_num [qualifying, demoObs, bucketOf]
  have hq2 : qualifying demoObs 2 5 = [] := by
    norm_num [qualifying, demoObs, bucketOf]
  have hd : (5 : Nat) ∈ obsDates demoObs := by decide
  exact ⟨⟨hq1, hq2, hd⟩,
    (c1_portfolio_mean_and_omission demoObs 1 5).2.2
      (by simp [hq1]) (by norm_num) (by norm_num) hd,
    by rw [hq1]; norm_num [listMean],
    (c1_portfolio_mean_and_omission demoObs 2 5).2.1 hq2 0⟩
